import Mathlib

set_option autoImplicit false

/-!
Shallow embedding of the task-management service
(repository `seldomhappy/vibe_architecture`).

The repository contains two near-duplicate implementations:
* the "int-id" variant: `internal/domain/repository/task_repository.go`
  (package `domain`: `Task`, `TaskStatus`, `Priority`, domain methods),
  `internal/usecase/task/usecase.go` (`TaskUseCase`),
  `internal/repository/task_repository.go` + `transaction.go`,
  `internal/delivery/http/handler.go`, `internal/pkg/lifecycle/lifecycle.go`;
* the "uuid-id" variant: `models.Task` (uuid id, `CompletedAt` field),
  `task.UseCase` with a `TxManager`, and a second lifecycle `Manager`.

Go machine integers carry no arithmetic here, so `int64` is embedded as
`Int`; `time.Time` as `Nat` ticks; Go string-typed enums as `String`,
exactly like the source (`type TaskStatus string`).
-/

namespace VibeArch

/-- Go `time.Time`, embedded as an abstract tick count. -/
abbrev Time := Nat

/-- `type TaskStatus string` (task_repository.go line 32). -/
abbrev TaskStatus := String

/-- `TaskStatusPending TaskStatus = "pending"`. -/
def taskStatusPending : TaskStatus := "pending"

/-- `TaskStatusInProgress TaskStatus = "in_progress"`. -/
def taskStatusInProgress : TaskStatus := "in_progress"

/-- `TaskStatusCompleted TaskStatus = "completed"`. -/
def taskStatusCompleted : TaskStatus := "completed"

/-- `TaskStatusCancelled TaskStatus = "cancelled"`. -/
def taskStatusCancelled : TaskStatus := "cancelled"

/-- `type Priority string` (task_repository.go line 42). -/
abbrev Priority := String

/-- `PriorityLow Priority = "low"`. -/
def priorityLow : Priority := "low"

/-- `PriorityMedium Priority = "medium"`. -/
def priorityMedium : Priority := "medium"

/-- `PriorityHigh Priority = "high"`. -/
def priorityHigh : Priority := "high"

/-- `TaskStatus.IsValid` (task_repository.go lines 136-142). -/
def statusIsValid (s : TaskStatus) : Bool :=
  s == taskStatusPending || s == taskStatusInProgress ||
  s == taskStatusCompleted || s == taskStatusCancelled

/-- `Priority.IsValid` (task_repository.go lines 145-151). -/
def priorityIsValid (p : Priority) : Bool :=
  p == priorityLow || p == priorityMedium || p == priorityHigh

/-- The `Task` entity of the int-id variant
(task_repository.go lines 51-61).  `AssignedTo *int64` becomes
`Option Int`; there is no completion-timestamp field. -/
structure Task where
  id : Int
  name : String
  description : String
  status : TaskStatus
  priority : Priority
  assignedTo : Option Int
  createdBy : Int
  createdAt : Time
  updatedAt : Time
deriving Repr, DecidableEq

/-- Go errors, compared by identity in the delivery layer's
`switch err` (handler.go lines 279-290).  The sentinels are the
`errors.New` values of `internal/domain/errors.go`; `errorf msg` stands
for any value produced by `fmt.Errorf` (a fresh error value, never equal
to a sentinel under Go `==`, wrapping included). -/
inductive Err where
  | emptyTaskName
  | taskNotFound
  | taskNameTooLong
  | userNotFound
  | unauthorized
  | invalidInput
  | internal
  | errorf (msg : String)
deriving Repr, DecidableEq

/-- Whitespace class used by `strings.TrimSpace` (ASCII part). -/
def isSpaceChar (c : Char) : Bool :=
  c == ' ' || c == '\t' || c == '\n' || c == '\r'

/-- Go `strings.TrimSpace`, embedded over the character list. -/
def trimSpace (s : String) : String :=
  ⟨((s.data.dropWhile isSpaceChar).reverse.dropWhile isSpaceChar).reverse⟩

/-- Go `len` on a string counts UTF-8 bytes. -/
def goLen (s : String) : Nat := s.utf8ByteSize

/-- `Task.Validate` (task_repository.go lines 64-81): returns the first
violated check's error, or `none` when the task is valid. -/
def Task.validate (t : Task) : Option Err :=
  if trimSpace t.name == "" then some .emptyTaskName
  else if goLen t.name > 255 then some .taskNameTooLong
  else if !statusIsValid t.status then some .invalidInput
  else if !priorityIsValid t.priority then some .invalidInput
  else if t.createdBy ≤ 0 then some .invalidInput
  else none

/-- `Task.IsCompleted` (task_repository.go lines 84-86). -/
def Task.isCompleted (t : Task) : Bool :=
  t.status == taskStatusCompleted

/-- `Task.CanBeAssigned` (task_repository.go lines 89-91). -/
def Task.canBeAssigned (t : Task) : Bool :=
  t.status == taskStatusPending || t.status == taskStatusInProgress

/-- `Task.Complete` (task_repository.go lines 94-104).  `now` stands for
the `time.Now()` call that refreshes `UpdatedAt`.  Note: only `Status`
and `UpdatedAt` are written; the entity has no completion-timestamp
field. -/
def Task.complete (t : Task) (now : Time) : Except Err Task :=
  if t.isCompleted then .error (.errorf "task is already completed")
  else if t.status == taskStatusCancelled then
    .error (.errorf "cannot complete a cancelled task")
  else .ok { t with status := taskStatusCompleted, updatedAt := now }

/-- `Task.Assign` (task_repository.go lines 107-120). -/
def Task.assign (t : Task) (userID : Int) (now : Time) : Except Err Task :=
  if !t.canBeAssigned then
    .error (.errorf ("task cannot be assigned in its current status: " ++ t.status))
  else if userID ≤ 0 then .error .userNotFound
  else
    let t1 : Task := { t with assignedTo := some userID }
    let t2 : Task :=
      if t1.status == taskStatusPending then
        { t1 with status := taskStatusInProgress }
      else t1
    .ok { t2 with updatedAt := now }

/-- `Task.Cancel` (task_repository.go lines 123-133). -/
def Task.cancel (t : Task) (now : Time) : Except Err Task :=
  if t.isCompleted then .error (.errorf "cannot cancel a completed task")
  else if t.status == taskStatusCancelled then
    .error (.errorf "task is already cancelled")
  else .ok { t with status := taskStatusCancelled, updatedAt := now }

/-!
Transaction manager and request context
(`internal/repository/transaction.go`, second half: `WithinTransaction`,
`txKey`, `GetTx`).  A `context.Context` is embedded as the value it may
carry under `txKey`; a `pgx.Tx` is identified by a `Nat` handle id.
-/

/-- A Go `context.Context`, reduced to its `txKey` slot. -/
structure Ctx where
  tx : Option Nat
deriving Repr, DecidableEq

/-- `GetTx` (transaction.go lines 105-108): the `(pgx.Tx, bool)` pair is
an `Option`. -/
def getTx (ctx : Ctx) : Option Nat := ctx.tx

/-- Observable effects of one use-case run: transaction control calls and
the repository / publisher calls, with the context each repository call
received. -/
inductive Step where
  | txBegin (tx : Nat)
  | txRollback (tx : Nat)
  | txCommit (tx : Nat)
  | repoCreate (ctx : Ctx)
  | publish
deriving Repr, DecidableEq

/-- Outcome of the function passed to `WithinTransaction`: it returns
nil, returns an error, or panics (the panic value is identified by a
`Nat`). -/
inductive FnOutcome where
  | ok
  | err (e : Err)
  | panics (v : Nat)
deriving Repr, DecidableEq

/-- Result of `WithinTransaction`: nil, an error, or a propagated
panic. -/
inductive TxResult where
  | ok
  | err (e : Err)
  | panicked (v : Nat)
deriving Repr, DecidableEq

/-- `TxManager.WithinTransaction` (transaction.go lines 75-102).
`beginRes` is the outcome of `tm.db.Pool.Begin(ctx)`; `commitErr` the
outcome of `tx.Commit`; `fn` also reports the steps its body performed.
The derived context handed to `fn` carries the transaction under
`txKey`.  A rollback failure is only logged, so it needs no parameter. -/
def withinTransaction (ctx : Ctx) (beginRes : Except Err Nat)
    (fn : Ctx → FnOutcome × List Step) (commitErr : Option Err) :
    TxResult × List Step :=
  match beginRes with
  | .error _ => (.err (.errorf "failed to begin transaction"), [])
  | .ok tx =>
    let ctx2 : Ctx := { ctx with tx := some tx }
    match fn ctx2 with
    | (.panics v, steps) =>
      (.panicked v, .txBegin tx :: steps ++ [.txRollback tx])
    | (.err e, steps) =>
      (.err e, .txBegin tx :: steps ++ [.txRollback tx])
    | (.ok, steps) =>
      match commitErr with
      | some _ =>
        (.err (.errorf "failed to commit transaction"),
         .txBegin tx :: steps ++ [.txCommit tx])
      | none => (.ok, .txBegin tx :: steps ++ [.txCommit tx])

/-!
Which persistence handle each repository operation of the int-id variant
uses (`internal/repository/task_repository.go`).  The `DB` wrapper's
`QueryRow`/`Query`/`Exec` all go to `db.pool` (part_008 lines 82-139),
and `Pool()` returns the pool itself; none of them reads `GetTx` from
the context.
-/

/-- The connection handle a statement runs on. -/
inductive Handle where
  | pool
  | tx (id : Nat)
deriving Repr, DecidableEq

/-- `DB.QueryRow` executes on `db.pool` (part_008 line 134). -/
def dbQueryRowHandle (_ctx : Ctx) : Handle := .pool

/-- `DB.Query` executes on `db.pool` (part_008 line 112). -/
def dbQueryHandle (_ctx : Ctx) : Handle := .pool

/-- `db.Pool().Exec` executes on the pool (part_008 lines 147-149). -/
def dbPoolExecHandle (_ctx : Ctx) : Handle := .pool

/-- `TaskRepository.Create` runs its INSERT through `r.db.QueryRow`
(task_repository.go line 57). -/
def taskRepoCreateHandle (ctx : Ctx) : Handle := dbQueryRowHandle ctx

/-- `TaskRepository.GetByID` runs its SELECT through `r.db.QueryRow`
(task_repository.go line 92). -/
def taskRepoGetByIDHandle (ctx : Ctx) : Handle := dbQueryRowHandle ctx

/-- `TaskRepository.GetAll` runs its SELECT through `r.db.Query`
(task_repository.go line 160). -/
def taskRepoGetAllHandle (ctx : Ctx) : Handle := dbQueryHandle ctx

/-- `TaskRepository.Update` runs its UPDATE through `r.db.Pool().Exec`
(task_repository.go line 206). -/
def taskRepoUpdateHandle (ctx : Ctx) : Handle := dbPoolExecHandle ctx

/-- `TaskRepository.Delete` runs its DELETE through `r.db.Pool().Exec`
(task_repository.go line 238). -/
def taskRepoDeleteHandle (ctx : Ctx) : Handle := dbPoolExecHandle ctx

/-!
Int-id variant use case (`internal/usecase/task/usecase.go`).  The
repository and publisher are external I/O, so each operation takes the
outcome of those calls as oracle parameters; everything the operation
itself computes is embedded faithfully.
-/

/-- `CreateTaskInput` (part_010). -/
structure CreateTaskInput where
  name : String
  description : String
  priority : Priority
  createdBy : Int
deriving Repr, DecidableEq

/-- `UpdateTaskInput` (part_010): pointer fields become `Option`. -/
structure UpdateTaskInput where
  name : Option String
  description : Option String
  status : Option TaskStatus
  priority : Option Priority
deriving Repr, DecidableEq

/-- `TaskCompletedEvent` (events file, `domain` package). -/
structure TaskCompletedEvent where
  taskID : Int
  completedAt : Time
deriving Repr, DecidableEq

/-- The task value `TaskUseCase.CreateTask` builds before validation
(usecase.go lines 52-58); unset Go fields take their zero values. -/
def buildCreateTask (input : CreateTaskInput) : Task :=
  { id := 0
    name := input.name
    description := input.description
    status := taskStatusPending
    priority := input.priority
    assignedTo := none
    createdBy := input.createdBy
    createdAt := 0
    updatedAt := 0 }

/-- `TaskUseCase.CreateTask` (usecase.go lines 37-93).  `ctx` is the
caller's request context, passed unchanged to `repo.Create`;
`createRes` is the repository outcome (`RETURNING id, created_at,
updated_at` hydrates the task on success); `pubErr` the publisher
outcome, which is only logged.  Returns the result and the performed
steps.  Note there is no transaction manager in this use case. -/
def TaskUseCase.createTask (ctx : Ctx) (input : CreateTaskInput)
    (createRes : Except Err (Int × Time × Time)) (_pubErr : Option Err) :
    Except Err Task × List Step :=
  let task := buildCreateTask input
  match task.validate with
  | some e => (.error e, [])
  | none =>
    match createRes with
    | .error _ => (.error (.errorf "failed to create task"), [.repoCreate ctx])
    | .ok (newID, ca, ua) =>
      let task2 : Task := { task with id := newID, createdAt := ca, updatedAt := ua }
      (.ok task2, [.repoCreate ctx, .publish])

/-- The field merge of `TaskUseCase.UpdateTask` (usecase.go lines
165-177): fields present in the partial input overwrite the loaded
task, `UpdatedAt` is refreshed. -/
def applyUpdate (t : Task) (input : UpdateTaskInput) (now : Time) : Task :=
  let t1 := match input.name with
    | some n => { t with name := n }
    | none => t
  let t2 := match input.description with
    | some d => { t1 with description := d }
    | none => t1
  let t3 := match input.status with
    | some s => { t2 with status := s }
    | none => t2
  let t4 := match input.priority with
    | some p => { t3 with priority := p }
    | none => t3
  { t4 with updatedAt := now }

/-- `TaskUseCase.UpdateTask` (usecase.go lines 147-211).  `getRes` is
the `repo.GetByID` outcome, `updErr` the `repo.Update` outcome.  The
second component is the task handed to `repo.Update` (if reached); the
publish failure is only logged. -/
def TaskUseCase.updateTask (getRes : Except Err Task)
    (input : UpdateTaskInput) (now : Time) (updErr : Option Err)
    (_pubErr : Option Err) : Except Err Task × Option Task :=
  match getRes with
  | .error e => (.error e, none)
  | .ok t =>
    let t2 := applyUpdate t input now
    match t2.validate with
    | some e => (.error e, none)
    | none =>
      match updErr with
      | some _ => (.error (.errorf "failed to update task"), some t2)
      | none => (.ok t2, some t2)

/-- Outcome record for `AssignTask` / `CompleteTask`: the returned error
(`none` = success), the task handed to `repo.Update` (if reached), and
the completed-event payload (for `CompleteTask`, if published). -/
structure MutOutcome where
  result : Option Err
  saved : Option Task
  event : Option TaskCompletedEvent
deriving Repr, DecidableEq

/-- `TaskUseCase.AssignTask` (usecase.go lines 247-298). -/
def TaskUseCase.assignTask (getRes : Except Err Task) (userID : Int)
    (now : Time) (updErr : Option Err) (_pubErr : Option Err) : MutOutcome :=
  match getRes with
  | .error e => { result := some e, saved := none, event := none }
  | .ok t =>
    match t.assign userID now with
    | .error e => { result := some e, saved := none, event := none }
    | .ok t2 =>
      match updErr with
      | some _ =>
        { result := some (.errorf "failed to save task"), saved := some t2, event := none }
      | none => { result := none, saved := some t2, event := none }

/-- `TaskUseCase.CompleteTask` (usecase.go lines 301-347).  `now` is the
`time.Now()` inside `Task.Complete` (line 102); `nowEvt` the later
`time.Now()` stamped on the published `TaskCompletedEvent` (line 335).
The publish failure is only logged, so the event payload is produced
whenever the update succeeded. -/
def TaskUseCase.completeTask (getRes : Except Err Task) (now nowEvt : Time)
    (updErr : Option Err) (_pubErr : Option Err) : MutOutcome :=
  match getRes with
  | .error e => { result := some e, saved := none, event := none }
  | .ok t =>
    match t.complete now with
    | .error e => { result := some e, saved := none, event := none }
    | .ok t2 =>
      match updErr with
      | some _ =>
        { result := some (.errorf "failed to save task"), saved := some t2, event := none }
      | none =>
        { result := none, saved := some t2,
          event := some { taskID := t2.id, completedAt := nowEvt } }

/-- `TaskUseCase.ListTasks` (usecase.go lines 118-144): a repository
failure is wrapped with `fmt.Errorf`, success is passed through. -/
def TaskUseCase.listTasks (repoRes : Except Err (List Task)) :
    Except Err (List Task) :=
  match repoRes with
  | .error _ => .error (.errorf "failed to list tasks")
  | .ok ts => .ok ts

/-!
HTTP delivery layer (`internal/delivery/http/handler.go`).
-/

/-- `TaskHandler.handleUseCaseError` (handler.go lines 279-290): a Go
`switch err` comparing by identity.  Sentinels map to 404/400/401; every
other value — including all `fmt.Errorf` products — hits the default
branch and yields 500. -/
def handleUseCaseErrorStatus (e : Err) : Nat :=
  match e with
  | .taskNotFound => 404
  | .emptyTaskName | .taskNameTooLong | .invalidInput => 400
  | .unauthorized => 401
  | _ => 500

/-- Status code of `POST /tasks` once the use case ran
(handler.go lines 75-81). -/
def createTaskStatus (res : Except Err Task) : Nat :=
  match res with
  | .ok _ => 201
  | .error e => handleUseCaseErrorStatus e

/-- Status code of `POST /tasks/{id}/complete` once the use case ran
(handler.go lines 229-234). -/
def completeTaskStatus (res : Option Err) : Nat :=
  match res with
  | none => 200
  | some e => handleUseCaseErrorStatus e

/-- `ListTasksFilter` (part_010); the repository applies each filter
only when present. -/
structure ListTasksFilter where
  status : Option TaskStatus
  priority : Option Priority
  assignedTo : Option Int
  limit : Int
  offset : Int
deriving Repr, DecidableEq

/-- The raw query parameters of `GET /tasks`; Go's `query.Get` returns
the empty string for an absent parameter. -/
structure ListQuery where
  status : String
  priority : String
  assignedTo : String
  limit : String
  offset : String
deriving Repr, DecidableEq

/-- Digit accumulator of the decimal parser: fails at the first
non-digit character. -/
def parseNatDigits : List Char → Nat → Option Nat
  | [], acc => some acc
  | c :: cs, acc =>
    if c.isDigit then parseNatDigits cs (acc * 10 + (c.toNat - 48))
    else none

/-- Go `strconv.Atoi` / `strconv.ParseInt(s, 10, 64)`, embedded as
decimal parsing with an optional sign (64-bit range checking is
irrelevant to the claims: out-of-range numerals are still numeric). -/
def atoi (s : String) : Option Int :=
  match s.data with
  | [] => none
  | '-' :: cs =>
    match cs with
    | [] => none
    | _ => (parseNatDigits cs 0).map (fun n => -(n : Int))
  | '+' :: cs =>
    match cs with
    | [] => none
    | _ => (parseNatDigits cs 0).map (fun n => (n : Int))
  | cs => (parseNatDigits cs 0).map (fun n => (n : Int))

/-- The filter `TaskHandler.ListTasks` builds from the query string
(handler.go lines 102-137): defaults limit 50 / offset 0, each
parameter applied only when present and well-formed, malformed values
silently skipped. -/
def listTasksFilterOf (q : ListQuery) : ListTasksFilter :=
  let f : ListTasksFilter :=
    { status := none, priority := none, assignedTo := none, limit := 50, offset := 0 }
  let f := if q.status != "" then { f with status := some q.status } else f
  let f := if q.priority != "" then { f with priority := some q.priority } else f
  let f :=
    if q.assignedTo != "" then
      match atoi q.assignedTo with
      | some i => { f with assignedTo := some i }
      | none => f
    else f
  let f :=
    if q.limit != "" then
      match atoi q.limit with
      | some l => if 0 < l ∧ l ≤ 100 then { f with limit := l } else f
      | none => f
    else f
  let f :=
    if q.offset != "" then
      match atoi q.offset with
      | some o => if 0 ≤ o then { f with offset := o } else f
      | none => f
    else f
  f

/-- Status code of `GET /tasks` (handler.go lines 139-146): the handler
never rejects query parameters; only the use-case outcome decides. -/
def listTasksStatus (_q : ListQuery) (repoRes : Except Err (List Task)) : Nat :=
  match TaskUseCase.listTasks repoRes with
  | .ok _ => 200
  | .error e => handleUseCaseErrorStatus e

/-!
Uuid-id variant (`models.Task`, part_003; `task.UseCase`, part_011).
-/

/-- `models.Task` (part_003): uuid id embedded as `String`; this
variant carries an optional `CompletedAt`. -/
structure MTask where
  id : String
  name : String
  description : String
  priority : String
  status : String
  createdAt : Time
  updatedAt : Time
  completedAt : Option Time
deriving Repr, DecidableEq

/-- `models.StatusPending` (part_003). -/
def mStatusPending : String := "pending"

/-- `models.CreateTaskRequest` (part_003). -/
structure MCreateTaskRequest where
  name : String
  description : String
  priority : String
deriving Repr, DecidableEq

/-- Body of the closure `UseCase.CreateTask` passes to
`WithinTransaction` (part_011 lines 54-68): create the task via the
repository on the transaction context; on success publish the created
event when a producer is wired, swallowing its error; return the create
error otherwise. -/
def uuidCreateBody (createErr : Option Err) (producerPresent : Bool)
    (_pubErr : Option Err) (ctx : Ctx) : FnOutcome × List Step :=
  match createErr with
  | some e => (.err e, [.repoCreate ctx])
  | none =>
    if producerPresent then (.ok, [.repoCreate ctx, .publish])
    else (.ok, [.repoCreate ctx])

/-- The task value `UseCase.CreateTask` builds (part_011 lines 44-52):
fresh uuid, status pending, both timestamps `time.Now()`. -/
def buildUuidCreateTask (req : MCreateTaskRequest) (newID : String)
    (now : Time) : MTask :=
  { id := newID
    name := req.name
    description := req.description
    priority := req.priority
    status := mStatusPending
    createdAt := now
    updatedAt := now
    completedAt := none }

/-- `UseCase.CreateTask` of the uuid variant (part_011 lines 43-76):
persists inside `WithinTransaction` and wraps any transaction error.
The inner body never panics, so the `panicked` branch is vacuous (it is
mapped to a wrapped error to keep the type simple). -/
def UseCase.createTask (ctx : Ctx) (req : MCreateTaskRequest)
    (newID : String) (now : Time) (beginRes : Except Err Nat)
    (createErr : Option Err) (producerPresent : Bool)
    (pubErr : Option Err) (commitErr : Option Err) :
    Except Err MTask × List Step :=
  let task := buildUuidCreateTask req newID now
  let r := withinTransaction ctx beginRes
    (uuidCreateBody createErr producerPresent pubErr) commitErr
  match r.1 with
  | .ok => (.ok task, r.2)
  | .err _ => (.error (.errorf "failed to create task"), r.2)
  | .panicked _ => (.error (.errorf "failed to create task"), r.2)

/-!
Lifecycle managers.  The int-id variant's manager
(`internal/pkg/lifecycle/lifecycle.go`) registers named services; the
uuid variant's manager (part_005, second half) registers components
addressed by index.  Each registered entry is embedded as its name (or
index) together with the outcome of its `Shutdown`/`Stop` call,
`Option String` being the error message.
-/

/-- The loop body of `Manager.ShutdownAll` (lifecycle.go lines 45-53),
processing the registered services already reversed: `acc` is
`lastErr`, overwritten (wrapped with the service name) at each failure;
the returned list records every service actually shut down, in order. -/
def shutdownGo : List (String × Option String) → Option String →
    Option String × List String
  | [], acc => (acc, [])
  | (name, res) :: rest, acc =>
    let acc2 := match res with
      | some msg => some ("failed to shutdown " ++ name ++ ": " ++ msg)
      | none => acc
    let r := shutdownGo rest acc2
    (r.1, name :: r.2)

/-- `Manager.ShutdownAll` (lifecycle.go lines 45-53): iterates the
registered services in reverse order, keeps going past failures, and
returns the last error encountered. -/
def shutdownAll (services : List (String × Option String)) :
    Option String × List String :=
  shutdownGo services.reverse none

/-- The loop body of the uuid variant's `Manager.Stop` (part_005 lines
188-195), processing indexed components already reversed: it returns at
the first failing component.  The returned list records the components
actually stopped. -/
def managerStopGo : List (Nat × Option String) → Option String × List Nat
  | [] => (none, [])
  | (i, res) :: rest =>
    match res with
    | some msg =>
      (some ("failed to stop component " ++ toString i ++ ": " ++ msg), [i])
    | none =>
      let r := managerStopGo rest
      (r.1, i :: r.2)

/-- The uuid variant's `Manager.Stop` (part_005 lines 188-195): iterates
in reverse registration order but aborts at the first failure. -/
def managerStop (components : List (Option String)) :
    Option String × List Nat :=
  managerStopGo components.enum.reverse

/-!
Claim theorems.
-/

/-- C9: for every task whose status is in_progress and every userID > 0,
`Assign(userID)` succeeds, sets `AssignedTo` to userID (overwriting any
previous assignee), refreshes `UpdatedAt`, and leaves the status
unchanged at in_progress; the pending→in_progress transition is applied
only when the task is pending. -/
theorem c9_assign_in_progress (t : Task) (userID : Int) (now : Time) :
    (t.status = taskStatusInProgress → 0 < userID →
      t.assign userID now = .ok { t with assignedTo := some userID, updatedAt := now })
    ∧ (∀ t2 : Task, t.assign userID now = .ok t2 →
        t.status ≠ taskStatusPending → t2.status = t.status) := by
  constructor
  · intro hs hu
    have hle : ¬ userID ≤ 0 := not_le.mpr hu
    simp [Task.assign, Task.canBeAssigned, hs, taskStatusInProgress,
      taskStatusPending, hle]
  · intro t2 h hnp
    unfold Task.assign at h
    by_cases hc : t.canBeAssigned
    · by_cases hu0 : userID ≤ 0
      · simp [hc, hu0] at h
      · have hsp : (t.status == taskStatusPending) = false := by
          simpa using hnp
        simp [hc, hu0, hsp] at h
        subst h
        rfl
    · simp [hc] at h

/-- C9 witness: a concrete in_progress task with assignee 9 is
reassigned to user 7 at tick 10. -/
theorem c9_witness :
    Task.assign
      { id := 1, name := "a", description := "", status := taskStatusInProgress,
        priority := priorityLow, assignedTo := some 9, createdBy := 2,
        createdAt := 3, updatedAt := 4 } 7 10
    = .ok { id := 1, name := "a", description := "",
            status := taskStatusInProgress,
            priority := priorityLow, assignedTo := some 7, createdBy := 2,
            createdAt := 3, updatedAt := 10 } :=
  (c9_assign_in_progress
    { id := 1, name := "a", description := "", status := taskStatusInProgress,
      priority := priorityLow, assignedTo := some 9, createdBy := 2,
      createdAt := 3, updatedAt := 4 } 7 10).1 rfl (by decide)

/-- C6: when Begin succeeds, `WithinTransaction` invokes `fn` with a
derived context carrying the transaction; it commits if and only if
`fn` returns nil; if `fn` returns an error it rolls back and returns
that same error; if `fn` panics it rolls back and re-raises the same
panic value. -/
theorem c6_within_transaction (ctx : Ctx) (tx : Nat)
    (beginRes : Except Err Nat) (fn : Ctx → FnOutcome × List Step)
    (commitErr : Option Err) (hb : beginRes = .ok tx) :
    getTx { ctx with tx := some tx } = some tx
    ∧ (∀ (e : Err) (steps : List Step),
        fn { ctx with tx := some tx } = (.err e, steps) →
        withinTransaction ctx beginRes fn commitErr
          = (.err e, .txBegin tx :: steps ++ [.txRollback tx]))
    ∧ (∀ steps : List Step,
        fn { ctx with tx := some tx } = (.ok, steps) → commitErr = none →
        withinTransaction ctx beginRes fn commitErr
          = (.ok, .txBegin tx :: steps ++ [.txCommit tx]))
    ∧ (∀ (v : Nat) (steps : List Step),
        fn { ctx with tx := some tx } = (.panics v, steps) →
        withinTransaction ctx beginRes fn commitErr
          = (.panicked v, .txBegin tx :: steps ++ [.txRollback tx]))
    ∧ ((withinTransaction ctx beginRes fn commitErr).2.getLast?
          = some (.txCommit tx)
        ↔ (fn { ctx with tx := some tx }).1 = FnOutcome.ok) := by
  subst hb
  refine ⟨rfl, ?_, ?_, ?_, ?_⟩
  · intro e steps h
    simp [withinTransaction, h]
  · intro steps h hc
    simp [withinTransaction, h, hc]
  · intro v steps h
    simp [withinTransaction, h]
  · unfold withinTransaction
    rcases hfn : fn { ctx with tx := some tx } with ⟨outcome, steps⟩
    cases outcome with
    | ok =>
      cases commitErr with
      | none => simp [hfn]; rw [← List.cons_append, List.getLast?_concat]
      | some e => simp [hfn]; rw [← List.cons_append, List.getLast?_concat]
    | err e => simp [hfn]; rw [← List.cons_append, List.getLast?_concat]; simp
    | panics v => simp [hfn]; rw [← List.cons_append, List.getLast?_concat]; simp

/-- C6 witness: a body that returns nil inside a successfully begun
transaction commits. -/
theorem c6_witness :
    withinTransaction ⟨none⟩ (.ok 1)
      (fun _ => (FnOutcome.ok, ([] : List Step))) none
    = (.ok, [.txBegin 1, .txCommit 1]) :=
  (c6_within_transaction ⟨none⟩ 1 (.ok 1)
    (fun _ => (FnOutcome.ok, ([] : List Step))) none rfl).2.2.1 [] rfl rfl

/-- C1 counterexample: `UpdateTask` moves a completed task back to
pending — the merged input status is written after only an
enum-validity check, so `completed` is not terminal under `UpdateTask`,
refuting the claim as stated. -/
theorem c1_counterexample :
    (TaskUseCase.updateTask
      (.ok { id := 1, name := "t", description := "",
             status := taskStatusCompleted, priority := priorityLow,
             assignedTo := none, createdBy := 1, createdAt := 0,
             updatedAt := 0 })
      { name := none, description := none,
        status := some taskStatusPending, priority := none }
      7 none none).1
    = .ok { id := 1, name := "t", description := "",
            status := taskStatusPending, priority := priorityLow,
            assignedTo := none, createdBy := 1, createdAt := 0,
            updatedAt := 7 }
    ∧ taskStatusPending ≠ taskStatusCompleted := by
  constructor
  · rfl
  · decide

/-- C1 (amended): completed and cancelled are terminal for the domain
methods `Assign`, `Complete` and `Cancel`, and hence for the
`AssignTask` and `CompleteTask` operations, which all fail on such a
task; `UpdateTask` however writes the input status after only an
enum-validity check and can leave a terminal status. -/
theorem c1_terminal_for_domain_methods (t : Task) (userID : Int)
    (now nowEvt : Time) (updErr pubErr : Option Err)
    (h : t.status = taskStatusCompleted ∨ t.status = taskStatusCancelled) :
    (∃ e, t.assign userID now = .error e)
    ∧ (∃ e, t.complete now = .error e)
    ∧ (∃ e, t.cancel now = .error e)
    ∧ (TaskUseCase.assignTask (.ok t) userID now updErr pubErr).result.isSome
    ∧ (TaskUseCase.completeTask (.ok t) now nowEvt updErr pubErr).result.isSome := by
  rcases h with h | h
  · have ha : t.assign userID now
        = .error (.errorf ("task cannot be assigned in its current status: " ++ t.status)) := by
      simp [Task.assign, Task.canBeAssigned, h, taskStatusCompleted,
        taskStatusPending, taskStatusInProgress]
    have hc : t.complete now = .error (.errorf "task is already completed") := by
      simp [Task.complete, Task.isCompleted, h, taskStatusCompleted]
    have hx : t.cancel now = .error (.errorf "cannot cancel a completed task") := by
      simp [Task.cancel, Task.isCompleted, h, taskStatusCompleted]
    refine ⟨⟨_, ha⟩, ⟨_, hc⟩, ⟨_, hx⟩, ?_, ?_⟩
    · simp [TaskUseCase.assignTask, ha]
    · simp [TaskUseCase.completeTask, hc]
  · have ha : t.assign userID now
        = .error (.errorf ("task cannot be assigned in its current status: " ++ t.status)) := by
      simp [Task.assign, Task.canBeAssigned, h, taskStatusCancelled,
        taskStatusPending, taskStatusInProgress]
    have hc : t.complete now = .error (.errorf "cannot complete a cancelled task") := by
      simp [Task.complete, Task.isCompleted, h, taskStatusCancelled,
        taskStatusCompleted]
    have hx : t.cancel now = .error (.errorf "task is already cancelled") := by
      simp [Task.cancel, Task.isCompleted, h, taskStatusCancelled,
        taskStatusCompleted]
    refine ⟨⟨_, ha⟩, ⟨_, hc⟩, ⟨_, hx⟩, ?_, ?_⟩
    · simp [TaskUseCase.assignTask, ha]
    · simp [TaskUseCase.completeTask, hc]

/-- C1 witness: every mutation method fails on a concrete cancelled
task. -/
theorem c1_witness :
    (∃ e, Task.assign
      { id := 2, name := "w", description := "", status := taskStatusCancelled,
        priority := priorityHigh, assignedTo := none, createdBy := 1,
        createdAt := 0, updatedAt := 0 } 3 5 = .error e)
    ∧ (∃ e, Task.complete
      { id := 2, name := "w", description := "", status := taskStatusCancelled,
        priority := priorityHigh, assignedTo := none, createdBy := 1,
        createdAt := 0, updatedAt := 0 } 5 = .error e)
    ∧ (∃ e, Task.cancel
      { id := 2, name := "w", description := "", status := taskStatusCancelled,
        priority := priorityHigh, assignedTo := none, createdBy := 1,
        createdAt := 0, updatedAt := 0 } 5 = .error e)
    ∧ (TaskUseCase.assignTask
      (.ok { id := 2, name := "w", description := "", status := taskStatusCancelled,
             priority := priorityHigh, assignedTo := none, createdBy := 1,
             createdAt := 0, updatedAt := 0 }) 3 5 none none).result.isSome
    ∧ (TaskUseCase.completeTask
      (.ok { id := 2, name := "w", description := "", status := taskStatusCancelled,
             priority := priorityHigh, assignedTo := none, createdBy := 1,
             createdAt := 0, updatedAt := 0 }) 5 6 none none).result.isSome :=
  c1_terminal_for_domain_methods
    { id := 2, name := "w", description := "", status := taskStatusCancelled,
      priority := priorityHigh, assignedTo := none, createdBy := 1,
      createdAt := 0, updatedAt := 0 } 3 5 6 none none (Or.inr rfl)

/-- C3: for a task whose status is completed or cancelled, `Complete`
returns an error; for a task in any other status it succeeds, sets the
status to completed (refreshing `UpdatedAt`), and — when the persist
succeeds and the clock has not run backwards since creation — the
completion timestamp `CompleteTask` stamps on the published
`TaskCompletedEvent` is ≥ the task's creation timestamp. -/
theorem c3_complete_behavior (t : Task) (now nowEvt : Time)
    (updErr pubErr : Option Err) :
    ((t.status = taskStatusCompleted ∨ t.status = taskStatusCancelled) →
      (∃ e, t.complete now = .error e)
      ∧ (TaskUseCase.completeTask (.ok t) now nowEvt updErr pubErr).result.isSome)
    ∧ (t.status ≠ taskStatusCompleted → t.status ≠ taskStatusCancelled →
      t.complete now = .ok { t with status := taskStatusCompleted, updatedAt := now }
      ∧ (updErr = none → t.createdAt ≤ nowEvt →
        (TaskUseCase.completeTask (.ok t) now nowEvt updErr pubErr).result = none
        ∧ ∃ ev : TaskCompletedEvent,
            (TaskUseCase.completeTask (.ok t) now nowEvt updErr pubErr).event = some ev
            ∧ t.createdAt ≤ ev.completedAt)) := by
  constructor
  · intro h
    rcases h with h | h
    · have hc : t.complete now = .error (.errorf "task is already completed") := by
        simp [Task.complete, Task.isCompleted, h, taskStatusCompleted]
      exact ⟨⟨_, hc⟩, by simp [TaskUseCase.completeTask, hc]⟩
    · have hc : t.complete now = .error (.errorf "cannot complete a cancelled task") := by
        simp [Task.complete, Task.isCompleted, h, taskStatusCancelled, taskStatusCompleted]
      exact ⟨⟨_, hc⟩, by simp [TaskUseCase.completeTask, hc]⟩
  · intro h1 h2
    have hc : t.complete now
        = .ok { t with status := taskStatusCompleted, updatedAt := now } := by
      simp [Task.complete, Task.isCompleted, h1, h2]
    refine ⟨hc, ?_⟩
    intro hu hck
    subst hu
    refine ⟨by simp [TaskUseCase.completeTask, hc], ?_⟩
    exact ⟨{ taskID := t.id, completedAt := nowEvt },
      by simp [TaskUseCase.completeTask, hc], hck⟩

/-- C3 witness: completing a concrete pending task at tick 9 succeeds,
and the event stamped at tick 10 carries a completion time ≥ the
creation time 3. -/
theorem c3_witness :
    Task.complete
      { id := 4, name := "c", description := "", status := taskStatusPending,
        priority := priorityMedium, assignedTo := none, createdBy := 2,
        createdAt := 3, updatedAt := 3 } 9
    = .ok { id := 4, name := "c", description := "", status := taskStatusCompleted,
            priority := priorityMedium, assignedTo := none, createdBy := 2,
            createdAt := 3, updatedAt := 9 }
    ∧ ((TaskUseCase.completeTask
        (.ok { id := 4, name := "c", description := "", status := taskStatusPending,
               priority := priorityMedium, assignedTo := none, createdBy := 2,
               createdAt := 3, updatedAt := 3 }) 9 10 none none).result = none
      ∧ ∃ ev : TaskCompletedEvent,
          (TaskUseCase.completeTask
            (.ok { id := 4, name := "c", description := "", status := taskStatusPending,
                   priority := priorityMedium, assignedTo := none, createdBy := 2,
                   createdAt := 3, updatedAt := 3 }) 9 10 none none).event = some ev
          ∧ 3 ≤ ev.completedAt) := by
  have h := (c3_complete_behavior
    { id := 4, name := "c", description := "", status := taskStatusPending,
      priority := priorityMedium, assignedTo := none, createdBy := 2,
      createdAt := 3, updatedAt := 3 } 9 10 none none).2
    (by decide) (by decide)
  exact ⟨h.1, h.2 rfl (by decide)⟩

/-- C4 counterexample: with an active transaction carried by the
context, `TaskRepository.Update` still executes through the ambient
pool — the context transaction is ignored, refuting the claim that the
operation executes through that transaction. -/
theorem c4_counterexample :
    getTx { tx := some 1 } = some 1
    ∧ taskRepoUpdateHandle { tx := some 1 } = Handle.pool
    ∧ Handle.pool ≠ Handle.tx 1 :=
  ⟨rfl, rfl, by decide⟩

/-- C4 (amended): every repository operation of the int-id variant
executes its SQL through the ambient connection pool regardless of any
transaction carried by the caller's context; `GetTx` exposes that
transaction but no repository operation consults it. -/
theorem c4_repo_ops_use_pool (ctx : Ctx) :
    taskRepoCreateHandle ctx = Handle.pool
    ∧ taskRepoGetByIDHandle ctx = Handle.pool
    ∧ taskRepoGetAllHandle ctx = Handle.pool
    ∧ taskRepoUpdateHandle ctx = Handle.pool
    ∧ taskRepoDeleteHandle ctx = Handle.pool :=
  ⟨rfl, rfl, rfl, rfl, rfl⟩

/-- Helper: every error `Task.Complete` produces is a plain `fmt.Errorf`
value, never one of the sentinel errors the handler recognises. -/
theorem complete_error_is_errorf (t : Task) (now : Time) (e : Err)
    (h : t.complete now = .error e) : ∃ m, e = .errorf m := by
  unfold Task.complete at h
  split at h
  · cases h
    exact ⟨_, rfl⟩
  · split at h
    · cases h
      exact ⟨_, rfl⟩
    · cases h

/-- C5 counterexample: `POST /tasks/{id}/complete` on an
already-completed task responds 500, not 409 or 400 — the domain
method's `fmt.Errorf` error falls into the handler's default branch —
refuting the claim that this route fails only with 404 or 409 and never
with 500. -/
theorem c5_counterexample :
    completeTaskStatus
      (TaskUseCase.completeTask
        (.ok { id := 3, name := "d", description := "",
               status := taskStatusCompleted, priority := priorityLow,
               assignedTo := none, createdBy := 1, createdAt := 0,
               updatedAt := 0 }) 5 6 none none).result = 500 := rfl

/-- C5 (amended): invalid-state failures surface as plain `fmt.Errorf`
errors that the handler's default branch maps to 500:
`POST /tasks/{id}/complete` responds 200 on success, 404 when the task
is missing, and 500 otherwise — including the already-completed or
cancelled case — and never responds 409 (given that `GetByID` yields
either the not-found sentinel or a wrapped error). -/
theorem c5_complete_endpoint_statuses (getRes : Except Err Task)
    (now nowEvt : Time) (updErr pubErr : Option Err)
    (hget : ∀ e : Err, getRes = .error e →
      e = .taskNotFound ∨ ∃ m, e = .errorf m) :
    completeTaskStatus
        (TaskUseCase.completeTask getRes now nowEvt updErr pubErr).result ≠ 409
    ∧ (completeTaskStatus
          (TaskUseCase.completeTask getRes now nowEvt updErr pubErr).result = 200
        ∨ completeTaskStatus
          (TaskUseCase.completeTask getRes now nowEvt updErr pubErr).result = 404
        ∨ completeTaskStatus
          (TaskUseCase.completeTask getRes now nowEvt updErr pubErr).result = 500)
    ∧ (∀ t : Task, getRes = .ok t →
        (t.status = taskStatusCompleted ∨ t.status = taskStatusCancelled) →
        completeTaskStatus
          (TaskUseCase.completeTask getRes now nowEvt updErr pubErr).result = 500)
    ∧ (getRes = .error Err.taskNotFound →
        completeTaskStatus
          (TaskUseCase.completeTask getRes now nowEvt updErr pubErr).result = 404) := by
  rcases hg : getRes with e | t
  · subst hg
    rcases hget e rfl with he | ⟨m, he⟩ <;> subst he
    · refine ⟨?_, ?_, ?_, ?_⟩ <;>
        simp [TaskUseCase.completeTask, completeTaskStatus, handleUseCaseErrorStatus]
    · refine ⟨?_, ?_, ?_, ?_⟩ <;>
        simp [TaskUseCase.completeTask, completeTaskStatus, handleUseCaseErrorStatus]
  · have hstat : ∀ r : MutOutcome,
        r = TaskUseCase.completeTask (.ok t) now nowEvt updErr pubErr →
        completeTaskStatus r.result = 200 ∨ completeTaskStatus r.result = 500 := by
      intro r hr
      rcases hcm : t.complete now with e | t2
      · rcases complete_error_is_errorf t now e hcm with ⟨m, hm⟩
        subst hm
        simp [TaskUseCase.completeTask, hcm, completeTaskStatus,
          handleUseCaseErrorStatus] at hr
        subst hr
        simp [completeTaskStatus, handleUseCaseErrorStatus]
      · cases updErr with
        | some e2 =>
          simp [TaskUseCase.completeTask, hcm, completeTaskStatus] at hr
          subst hr
          simp [completeTaskStatus, handleUseCaseErrorStatus]
        | none =>
          simp [TaskUseCase.completeTask, hcm, completeTaskStatus] at hr
          subst hr
          simp [completeTaskStatus]
    have h2 := hstat (TaskUseCase.completeTask (.ok t) now nowEvt updErr pubErr) rfl
    refine ⟨?_, ?_, ?_, ?_⟩
    · rcases h2 with h2 | h2 <;> omega
    · rcases h2 with h2 | h2
      · exact Or.inl h2
      · exact Or.inr (Or.inr h2)
    · intro t2 ht2 hterm
      have ht2e : t = t2 := by
        cases ht2
        rfl
      subst ht2e
      have hce : ∃ m : String, t.complete now = .error (.errorf m) := by
        rcases hterm with h | h
        · exact ⟨"task is already completed",
            by simp [Task.complete, Task.isCompleted, h, taskStatusCompleted]⟩
        · exact ⟨"cannot complete a cancelled task",
            by simp [Task.complete, Task.isCompleted, h, taskStatusCancelled,
              taskStatusCompleted]⟩
      rcases hce with ⟨m, hce⟩
      simp [TaskUseCase.completeTask, hce, completeTaskStatus,
        handleUseCaseErrorStatus]
    · intro habs
      cases habs

/-- C5 witness: statuses of the complete endpoint for a concrete
loaded pending task. -/
theorem c5_witness :
    completeTaskStatus
        (TaskUseCase.completeTask
          (.ok { id := 5, name := "e", description := "",
                 status := taskStatusPending, priority := priorityLow,
                 assignedTo := none, createdBy := 1, createdAt := 0,
                 updatedAt := 0 }) 1 2 none none).result ≠ 409
    ∧ (completeTaskStatus
          (TaskUseCase.completeTask
            (.ok { id := 5, name := "e", description := "",
                   status := taskStatusPending, priority := priorityLow,
                   assignedTo := none, createdBy := 1, createdAt := 0,
                   updatedAt := 0 }) 1 2 none none).result = 200
        ∨ completeTaskStatus
          (TaskUseCase.completeTask
            (.ok { id := 5, name := "e", description := "",
                   status := taskStatusPending, priority := priorityLow,
                   assignedTo := none, createdBy := 1, createdAt := 0,
                   updatedAt := 0 }) 1 2 none none).result = 404
        ∨ completeTaskStatus
          (TaskUseCase.completeTask
            (.ok { id := 5, name := "e", description := "",
                   status := taskStatusPending, priority := priorityLow,
                   assignedTo := none, createdBy := 1, createdAt := 0,
                   updatedAt := 0 }) 1 2 none none).result = 500) :=
  let r := c5_complete_endpoint_statuses
    (.ok { id := 5, name := "e", description := "",
           status := taskStatusPending, priority := priorityLow,
           assignedTo := none, createdBy := 1, createdAt := 0,
           updatedAt := 0 }) 1 2 none none (fun _ h => nomatch h)
  ⟨r.1, r.2.1⟩

/-- C8: a failure of the TaskCreated publish does not fail `CreateTask`:
the result is independent of the publish outcome, and for a valid input
whose persist succeeds both variants return the created task and the
HTTP layer returns 201.  The uuid variant's publish happens inside the
transaction and its error is swallowed before commit. -/
theorem c8_publish_failure_nonfatal (ctx : Ctx) (input : CreateTaskInput)
    (createRes : Except Err (Int × Time × Time))
    (pubErr pubErr2 : Option Err) (newID : Int) (ca ua : Time)
    (req : MCreateTaskRequest) (uid : String) (now : Time) (tx : Nat)
    (producerPresent : Bool)
    (hvalid : (buildCreateTask input).validate = none)
    (hcreate : createRes = .ok (newID, ca, ua)) :
    (TaskUseCase.createTask ctx input createRes pubErr).1
      = (TaskUseCase.createTask ctx input createRes pubErr2).1
    ∧ (TaskUseCase.createTask ctx input createRes pubErr).1
      = .ok { buildCreateTask input with id := newID, createdAt := ca, updatedAt := ua }
    ∧ createTaskStatus (TaskUseCase.createTask ctx input createRes pubErr).1 = 201
    ∧ (UseCase.createTask ctx req uid now (.ok tx) none producerPresent pubErr none).1
      = .ok (buildUuidCreateTask req uid now)
    ∧ createTaskStatus (TaskUseCase.createTask ctx input createRes pubErr2).1 = 201 := by
  subst hcreate
  have h1 : (TaskUseCase.createTask ctx input (.ok (newID, ca, ua)) pubErr).1
      = .ok { buildCreateTask input with id := newID, createdAt := ca, updatedAt := ua } := by
    simp [TaskUseCase.createTask, hvalid]
  have h2 : (TaskUseCase.createTask ctx input (.ok (newID, ca, ua)) pubErr2).1
      = .ok { buildCreateTask input with id := newID, createdAt := ca, updatedAt := ua } := by
    simp [TaskUseCase.createTask, hvalid]
  have h3 : (UseCase.createTask ctx req uid now (.ok tx) none producerPresent pubErr none).1
      = .ok (buildUuidCreateTask req uid now) := by
    cases producerPresent <;>
      simp [UseCase.createTask, withinTransaction, uuidCreateBody]
  refine ⟨h1.trans h2.symm, h1, ?_, h3, ?_⟩
  · rw [h1]
    rfl
  · rw [h2]
    rfl

/-- C8 witness: with the persist succeeding and the publish failing, a
concrete valid create still returns the task and a 201 status in both
variants. -/
theorem c8_witness :
    (TaskUseCase.createTask ⟨none⟩
        { name := "n", description := "", priority := priorityLow, createdBy := 1 }
        (.ok (7, 2, 2)) (some (.errorf "broker down"))).1
      = (TaskUseCase.createTask ⟨none⟩
        { name := "n", description := "", priority := priorityLow, createdBy := 1 }
        (.ok (7, 2, 2)) none).1
    ∧ (TaskUseCase.createTask ⟨none⟩
        { name := "n", description := "", priority := priorityLow, createdBy := 1 }
        (.ok (7, 2, 2)) (some (.errorf "broker down"))).1
      = .ok { buildCreateTask
          { name := "n", description := "", priority := priorityLow, createdBy := 1 }
            with id := 7, createdAt := 2, updatedAt := 2 }
    ∧ createTaskStatus (TaskUseCase.createTask ⟨none⟩
        { name := "n", description := "", priority := priorityLow, createdBy := 1 }
        (.ok (7, 2, 2)) (some (.errorf "broker down"))).1 = 201
    ∧ (UseCase.createTask ⟨none⟩ { name := "m", description := "", priority := "low" }
        "u1" 4 (.ok 1) none true (some (.errorf "broker down")) none).1
      = .ok (buildUuidCreateTask { name := "m", description := "", priority := "low" } "u1" 4)
    ∧ createTaskStatus (TaskUseCase.createTask ⟨none⟩
        { name := "n", description := "", priority := priorityLow, createdBy := 1 }
        (.ok (7, 2, 2)) none).1 = 201 :=
  c8_publish_failure_nonfatal ⟨none⟩
    { name := "n", description := "", priority := priorityLow, createdBy := 1 }
    (.ok (7, 2, 2)) (some (.errorf "broker down")) none 7 2 2
    { name := "m", description := "", priority := "low" } "u1" 4 1 true
    (by decide) rfl

/-- C10: invalid pagination or filter query parameters of `GET /tasks`
are silently ignored: an absent, non-numeric, non-positive or over-100
limit leaves the default 50; an absent, non-numeric or negative offset
leaves 0; a non-numeric assigned_to adds no filter; and the route never
responds 400 for these parameters. -/
theorem c10_list_params_lenient (q : ListQuery)
    (repoRes : Except Err (List Task)) :
    ((atoi q.limit = none ∨ ∃ l : Int, atoi q.limit = some l ∧ (l ≤ 0 ∨ 100 < l)) →
      (listTasksFilterOf q).limit = 50)
    ∧ ((atoi q.offset = none ∨ ∃ o : Int, atoi q.offset = some o ∧ o < 0) →
      (listTasksFilterOf q).offset = 0)
    ∧ (atoi q.assignedTo = none → (listTasksFilterOf q).assignedTo = none)
    ∧ listTasksStatus q repoRes ≠ 400 := by
  have hstatus : listTasksStatus q repoRes ≠ 400 := by
    rcases repoRes with e | ts <;>
      simp [listTasksStatus, TaskUseCase.listTasks, handleUseCaseErrorStatus]
  refine ⟨?_, ?_, ?_, hstatus⟩
  · intro h
    rcases hA : atoi q.assignedTo with _ | i <;>
      rcases hL : atoi q.limit with _ | l <;>
        rcases hO : atoi q.offset with _ | o <;>
          simp only [listTasksFilterOf, hA, hL, hO,
            apply_ite ListTasksFilter.limit, ite_self]
    all_goals
      rcases h with h | ⟨l2, hl2, hb⟩
    all_goals try simp [hL] at h
    all_goals rw [hL] at hl2
    all_goals injection hl2 with hl2
    all_goals subst hl2
    all_goals have hnb : ¬(0 < l ∧ l ≤ 100) := by omega
    all_goals simp [hnb, ite_self]
  · intro h
    rcases hA : atoi q.assignedTo with _ | i <;>
      rcases hL : atoi q.limit with _ | l <;>
        rcases hO : atoi q.offset with _ | o <;>
          simp only [listTasksFilterOf, hA, hL, hO,
            apply_ite ListTasksFilter.offset, ite_self]
    all_goals
      rcases h with h | ⟨o2, ho2, hb⟩
    all_goals try simp [hO] at h
    all_goals rw [hO] at ho2
    all_goals injection ho2 with ho2
    all_goals subst ho2
    all_goals have hnb : ¬(0 ≤ o) := by omega
    all_goals simp [hnb, ite_self]
  · intro h
    rcases hL : atoi q.limit with _ | l <;>
      rcases hO : atoi q.offset with _ | o <;>
        simp only [listTasksFilterOf, h, hL, hO,
          apply_ite ListTasksFilter.assignedTo, ite_self]

/-- C10 witness: a query with non-numeric assigned_to, an over-limit
limit and a negative offset keeps all defaults, and the route responds
200 on an empty repository result. -/
theorem c10_witness :
    (listTasksFilterOf
        { status := "", priority := "", assignedTo := "abc",
          limit := "999", offset := "-3" }).limit = 50
    ∧ (listTasksFilterOf
        { status := "", priority := "", assignedTo := "abc",
          limit := "999", offset := "-3" }).offset = 0
    ∧ (listTasksFilterOf
        { status := "", priority := "", assignedTo := "abc",
          limit := "999", offset := "-3" }).assignedTo = none
    ∧ listTasksStatus
        { status := "", priority := "", assignedTo := "abc",
          limit := "999", offset := "-3" } (.ok []) ≠ 400 :=
  let r := c10_list_params_lenient
    { status := "", priority := "", assignedTo := "abc",
      limit := "999", offset := "-3" } (.ok [])
  ⟨r.1 (Or.inr ⟨999, rfl, by decide⟩), r.2.1 (Or.inr ⟨-3, rfl, by decide⟩),
   r.2.2.1 (by decide), r.2.2.2⟩

/-- C2 counterexample: the int-id variant's `CreateTask`, on a valid
input whose persist succeeds, performs its repository Create call on the
caller's plain request context — its trace has no transaction step at
all and the context carries no transaction — refuting the claim that
every `CreateTask` persists inside a transaction supplied by the
transaction manager. -/
theorem c2_counterexample :
    (TaskUseCase.createTask ⟨none⟩
        { name := "n", description := "", priority := priorityLow, createdBy := 1 }
        (.ok (7, 2, 2)) none).2
      = [Step.repoCreate ⟨none⟩, Step.publish]
    ∧ getTx ⟨none⟩ = none
    ∧ ((TaskUseCase.createTask ⟨none⟩
        { name := "n", description := "", priority := priorityLow, createdBy := 1 }
        (.ok (7, 2, 2)) none).2.all
        (fun s => match s with
          | Step.txBegin _ => false
          | Step.txCommit _ => false
          | Step.txRollback _ => false
          | _ => true)) = true := by
  refine ⟨?_, rfl, ?_⟩ <;> decide

/-- C2 (amended): the uuid variant's `UseCase.CreateTask` does run its
repository Create inside `WithinTransaction` — on the derived context
carrying the transaction, committing on success (the best-effort publish
happens inside the transaction and cannot fail it) and rolling back when
the persist fails — and returns the hydrated task; the int-id variant's
`TaskUseCase.CreateTask` has no transaction (see the counterexample). -/
theorem c2_uuid_create_within_tx (ctx : Ctx) (req : MCreateTaskRequest)
    (newID : String) (now : Time) (tx : Nat) (producerPresent : Bool)
    (pubErr : Option Err) (commitErr : Option Err) :
    getTx { ctx with tx := some tx } = some tx
    ∧ UseCase.createTask ctx req newID now (.ok tx) none producerPresent pubErr none
      = (.ok (buildUuidCreateTask req newID now),
         .txBegin tx ::
           (if producerPresent then
              [Step.repoCreate { ctx with tx := some tx }, Step.publish]
            else [Step.repoCreate { ctx with tx := some tx }])
           ++ [.txCommit tx])
    ∧ (∀ e : Err,
        UseCase.createTask ctx req newID now (.ok tx) (some e) producerPresent pubErr commitErr
        = (.error (.errorf "failed to create task"),
           [.txBegin tx, Step.repoCreate { ctx with tx := some tx }, .txRollback tx])) := by
  refine ⟨rfl, ?_, ?_⟩
  · cases producerPresent <;>
      simp [UseCase.createTask, withinTransaction, uuidCreateBody]
  · intro e
    cases producerPresent <;>
      simp [UseCase.createTask, withinTransaction, uuidCreateBody]

/-- C7 counterexample: in the uuid variant's lifecycle manager, when the
last-registered of two components fails to stop, `Stop` returns at once
and the first-registered component is never stopped — refuting the
claim that no registered component is skipped because an earlier stop
failed. -/
theorem c7_counterexample :
    managerStop [none, some "boom"]
      = (some "failed to stop component 1: boom", [1])
    ∧ ((managerStop [none, some "boom"]).2.contains 0) = false := by
  refine ⟨?_, ?_⟩ <;> decide

/-- Specification helper: the first registered service whose shutdown
fails, wrapped the way `ShutdownAll` wraps it; during the reverse
iteration this is the last error encountered. -/
def firstFailureWrapped : List (String × Option String) → Option String
  | [] => none
  | (n, some m) :: _ => some ("failed to shutdown " ++ n ++ ": " ++ m)
  | (_, none) :: rest => firstFailureWrapped rest

/-- Helper: the last failure in processing order, wrapped. -/
def lastFailureWrapped : List (String × Option String) → Option String
  | [] => none
  | (n, res) :: rest =>
    match lastFailureWrapped rest with
    | some e => some e
    | none => res.map (fun m => "failed to shutdown " ++ n ++ ": " ++ m)

/-- Helper: `shutdownGo` shuts down every entry of its list, in order. -/
theorem shutdownGo_snd (l : List (String × Option String)) :
    ∀ acc : Option String, (shutdownGo l acc).2 = l.map Prod.fst := by
  induction l with
  | nil => intro acc; rfl
  | cons p rest ih =>
    intro acc
    obtain ⟨n, res⟩ := p
    simp [shutdownGo, ih]

/-- Helper: the error `shutdownGo` ends with is the last failure it
processed, or the accumulator if none failed. -/
theorem shutdownGo_fst (l : List (String × Option String)) :
    ∀ acc : Option String,
      (shutdownGo l acc).1
        = match lastFailureWrapped l with
          | some e => some e
          | none => acc := by
  induction l with
  | nil => intro acc; rfl
  | cons p rest ih =>
    intro acc
    obtain ⟨n, res⟩ := p
    show (shutdownGo rest _).1 = _
    rw [ih]
    cases hrest : lastFailureWrapped rest with
    | some e => simp [lastFailureWrapped, hrest]
    | none => cases res <;> simp [lastFailureWrapped, hrest]

/-- Helper: the last failure of an appended list. -/
theorem lastFailureWrapped_append (a b : List (String × Option String)) :
    lastFailureWrapped (a ++ b)
      = match lastFailureWrapped b with
        | some e => some e
        | none => lastFailureWrapped a := by
  induction a with
  | nil =>
    simp only [List.nil_append]
    cases hb : lastFailureWrapped b <;> simp [lastFailureWrapped, hb]
  | cons p rest ih =>
    obtain ⟨n, res⟩ := p
    have hstep : ∀ l : List (String × Option String),
        lastFailureWrapped ((n, res) :: l)
          = match lastFailureWrapped l with
            | some e => some e
            | none =>
              res.map (fun m => "failed to shutdown " ++ n ++ ": " ++ m) := by
      intro l
      rfl
    rw [List.cons_append, hstep, hstep, ih]
    cases hb : lastFailureWrapped b with
    | some e => rfl
    | none =>
      cases hrest : lastFailureWrapped rest with
      | some e => rfl
      | none => rfl

/-- Helper: the last failure of the reversed list is the first failure
of the original list. -/
theorem lastFailureWrapped_reverse (l : List (String × Option String)) :
    lastFailureWrapped l.reverse = firstFailureWrapped l := by
  induction l with
  | nil => rfl
  | cons p rest ih =>
    obtain ⟨n, res⟩ := p
    rw [List.reverse_cons, lastFailureWrapped_append]
    cases res with
    | some m => rfl
    | none =>
      show (match lastFailureWrapped [(n, none)] with
        | some e => some e
        | none => lastFailureWrapped rest.reverse) = _
      simp [lastFailureWrapped, ih, firstFailureWrapped]

/-- C7 (amended): `ShutdownAll` of `pkg/lifecycle` iterates in reverse
registration order, attempts to stop every registered service even when
an earlier stop failed, and returns the last error encountered (the
first registered failing service's error, wrapped with its name); the
uuid variant's `Manager.Stop` instead aborts at the first failure (see
the counterexample). -/
theorem c7_shutdown_all_best_effort (services : List (String × Option String)) :
    (shutdownAll services).2 = (services.map Prod.fst).reverse
    ∧ (shutdownAll services).1 = firstFailureWrapped services := by
  constructor
  · rw [shutdownAll, shutdownGo_snd, List.map_reverse]
  · rw [shutdownAll, shutdownGo_fst, lastFailureWrapped_reverse]
    cases firstFailureWrapped services <;> rfl

end VibeArch
